import Mathlib

/-!
Verification of the triton feedforward neural-network core.

Shallow embedding of `src/network/network.rs` and `src/network/layer/dense.rs`.
Floats (`f32`) are modelled as rationals (`ℚ`).  Rust panics are modelled as
`Except`/`Option` failures.  The matrix library (`matrix.rs`), the activation
enumeration (`activations.rs`), the `Input` capability (`input.rs`) and the
`LayerTypes` enumeration (`layers.rs`) are not part of the sources; they are
modelled from the specification (each such definition carries a comment
starting with `Modelled from the spec:`).
-/

namespace Triton

/-- Modelled from the spec: the `Matrix` data model of matrix.rs (§3/§4.1):
`rows`, `columns`, and `data` as a sequence of rows of floats. -/
structure Matrix where
  rows : Nat
  columns : Nat
  data : List (List ℚ)
deriving DecidableEq

namespace Matrix

/-- Cell access, out-of-range reads default to `0` (used only to build the
results of `transpose` and `*`, whose source iterates over index ranges). -/
def get (m : Matrix) (i j : Nat) : ℚ := (m.data.getD i []).getD j 0

/-- Modelled from the spec: `Matrix::new_random(rows, columns)` fills every
cell from a random source; the randomness is passed in as the function
`rng`, so every theorem quantifies over all possible initializations. -/
def new_random (rng : Nat → Nat → ℚ) (rows columns : Nat) : Matrix :=
  ⟨rows, columns, (List.range rows).map fun i => (List.range columns).map fun j => rng i j⟩

/-- Modelled from the spec: `Matrix::from(nested)` builds a Matrix whose
dimensions are the outer/inner lengths of the input. -/
def fromVec (d : List (List ℚ)) : Matrix := ⟨d.length, (d.headD []).length, d⟩

/-- Modelled from the spec: `transpose()` swaps rows and columns. -/
def transpose (m : Matrix) : Matrix :=
  ⟨m.columns, m.rows, (List.range m.columns).map fun j => (List.range m.rows).map fun i => m.get i j⟩

/-- Modelled from the spec: element-wise `map(f)`. -/
def map (m : Matrix) (f : ℚ → ℚ) : Matrix :=
  ⟨m.rows, m.columns, m.data.map fun r => r.map f⟩

/-- Modelled from the spec: element-wise `+`; mismatched dimensions are a
DimensionMismatch failure, modelled as `none`. -/
def add (a b : Matrix) : Option Matrix :=
  if a.rows = b.rows ∧ a.columns = b.columns then
    some ⟨a.rows, a.columns, List.zipWith (fun r s => List.zipWith (fun x y => x + y) r s) a.data b.data⟩
  else none

/-- Modelled from the spec: element-wise `-`; mismatched dimensions fail. -/
def sub (a b : Matrix) : Option Matrix :=
  if a.rows = b.rows ∧ a.columns = b.columns then
    some ⟨a.rows, a.columns, List.zipWith (fun r s => List.zipWith (fun x y => x - y) r s) a.data b.data⟩
  else none

/-- Modelled from the spec: `dot_multiply` (Hadamard product); mismatched
dimensions fail. -/
def dot_multiply (a b : Matrix) : Option Matrix :=
  if a.rows = b.rows ∧ a.columns = b.columns then
    some ⟨a.rows, a.columns, List.zipWith (fun r s => List.zipWith (fun x y => x * y) r s) a.data b.data⟩
  else none

/-- Modelled from the spec: `*` (matrix multiplication); left columns must
equal right rows, otherwise DimensionMismatch (`none`). -/
def mul (a b : Matrix) : Option Matrix :=
  if a.columns = b.rows then
    some ⟨a.rows, b.columns,
      (List.range a.rows).map fun i => (List.range b.columns).map fun j =>
        (((List.range a.columns).map fun k => a.get i k * b.get k j).sum)⟩
  else none

/-- Modelled from the spec: `to_param()` flattens row-major. -/
def to_param (m : Matrix) : List ℚ := m.data.flatten

/-- Modelled from the spec: `to_param_2d()` returns the row-major nested
sequence unchanged. -/
def to_param_2d (m : Matrix) : List (List ℚ) := m.data

end Matrix

/-- Modelled from the spec: an activation resolves to a pure
function/derivative pair of scalar maps (§4.2).  The enumerated tag is
abstracted away: a layer carries the pair itself, so every theorem
quantifies over all activations. -/
structure Activation where
  function : ℚ → ℚ
  derivative : ℚ → ℚ

/-- Modelled from the spec: `get_function()` resolves the tag to its
function/derivative pair; with the pair carried directly it is the
identity. -/
def Activation.get_function (a : Activation) : Activation := a

/-- The `Dense` layer record of dense.rs. -/
structure Dense where
  weights : Matrix
  biases : Matrix
  data : Matrix
  loss : ℚ
  activation_fn : Activation
  learning_rate : ℚ
  beta1 : ℚ
  beta2 : ℚ
  epsilon : ℚ
  time : Nat

namespace Dense

/-- `Dense::get_betas`. -/
def get_betas (_ : Dense) : ℚ × ℚ := (9 / 10, 999 / 1000)

/-- `Dense::get_epsilon`. -/
def get_epsilon (_ : Dense) : ℚ := 1 / 10000000000

/-- `Dense::new(layers, layer_cols_before, activation, learning_rate)`.
The two random sources feed the weight and bias initialization (the `data`
cache is initialized as an empty 0×0 matrix, for which the random source is
irrelevant). -/
def new (rngW rngB : Nat → Nat → ℚ) (layers layer_cols_before : Nat)
    (activation : Activation) (learning_rate : ℚ) : Dense :=
  let res : Dense :=
    { loss := 1
      weights := Matrix.new_random rngW layer_cols_before layers
      biases := Matrix.new_random rngB layer_cols_before 1
      data := Matrix.new_random (fun _ _ => 0) 0 0
      activation_fn := activation
      learning_rate := learning_rate
      beta1 := 0
      beta2 := 0
      epsilon := 0
      time := 0 }
  { res with beta1 := res.get_betas.1, beta2 := res.get_betas.2, epsilon := res.get_epsilon }

/-- `Dense::forward` from dense.rs: computes
`(weights * Matrix::from(inputs.to_param_2d()).transpose() + biases).map(activation)`,
stores it as the cached `data`, and returns its transpose.  Result is the
updated layer paired with the returned matrix; `none` models the panic on a
dimension mismatch inside the matrix arithmetic. -/
def forward (self : Dense) (inputs : Matrix) : Option (Dense × Matrix) :=
  match Matrix.mul self.weights (Matrix.fromVec inputs.to_param_2d).transpose with
  | none => none
  | some prod =>
    match Matrix.add prod self.biases with
    | none => none
    | some summed =>
      let d := summed.map self.activation_fn.get_function.function
      some ({ self with data := d }, d.transpose)

/-- `Dense::backward` from dense.rs.  Returns the updated layer (its `loss`
field is the only mutation) together with the quadruple
`(new_biases, new_layer_prev, gradients_mat, errors_mat)`; `none` models the
panic on a dimension mismatch.  The `inputs` (target matrix) argument is
unused, exactly as in the source. -/
def backward (self : Dense) (inputs gradients errors layer_prev layer_prev_bias : Matrix) :
    Option (Dense × Matrix × Matrix × Matrix × Matrix) :=
  match Matrix.dot_multiply gradients errors with
  | none => none
  | some gm0 =>
    let gradients_mat := gm0.map fun x => x * self.learning_rate
    match Matrix.mul gradients_mat self.data.transpose with
    | none => none
    | some prod =>
      match Matrix.add layer_prev prod with
      | none => none
      | some new_layer_prev =>
        match Matrix.add layer_prev_bias gradients_mat with
        | none => none
        | some new_biases =>
          match Matrix.mul layer_prev.transpose errors with
          | none => none
          | some errors_mat =>
            let loss := ((errors_mat.to_param.map fun e => e * e).sum) / (errors_mat.to_param.length : ℚ)
            let gm2 := self.data.map self.activation_fn.get_function.derivative
            some ({ self with loss := loss }, new_biases, new_layer_prev, gm2, errors_mat)

/-- `Layer::get_activation` for `Dense`: always `some`. -/
def get_activation (self : Dense) : Option Activation := some self.activation_fn

end Dense

/-- Modelled from the spec: the `LayerTypes` specification enum of layers.rs.
Only the `DENSE(size, activation, learning_rate)` variant is worked out in
the repository. -/
inductive LayerTypes where
  | DENSE (size : Nat) (activation : Activation) (learning_rate : ℚ)

/-- Modelled from the spec: `LayerTypes::get_size` returns the declared
width. -/
def LayerTypes.get_size : LayerTypes → Nat
  | .DENSE n _ _ => n

/-- Modelled from the spec: `LayerTypes::to_layer(layer_cols)` instantiates
the concrete layer; per §3 the concrete dimensions are derived from this
specification's width and the next specification's width, the weight matrix
being `[next width × this width]` (the orientation forced by §8's
feed-forward dimension chain together with `Dense::new`'s
`new_random(layer_cols_before, layers)` call in dense.rs). -/
def LayerTypes.to_layer (rngW rngB : Nat → Nat → ℚ) : LayerTypes → Nat → Dense
  | .DENSE n act lr, layer_cols => Dense.new rngW rngB n layer_cols act lr

/-- Error taxonomy of §7; `OutOfBounds` models a raw Rust index panic that
falls outside the spec's three categories. -/
inductive NetError where
  | InvalidInput
  | InvalidState
  | DimensionMismatch
  | OutOfBounds
deriving DecidableEq

/-- The `Network` record of network.rs. -/
structure Network where
  layer_sizes : List Nat
  loss : ℚ
  layers : List Dense
  uncompiled_layers : List LayerTypes

/-- `ITERATIONS_PER_EPOCH` from network.rs. -/
def ITERATIONS_PER_EPOCH : Nat := 10000

/-- Default used to model Rust vector indexing (`getD`); network.rs only
indexes in bounds wherever this default could matter. -/
def dfltLayerType : LayerTypes := .DENSE 0 ⟨fun x => x, fun x => x⟩ 0

/-- Default `Dense` for `getD`-style indexing. -/
def dfltDense : Dense :=
  Dense.new (fun _ _ => 0) (fun _ _ => 0) 0 0 ⟨fun x => x, fun x => x⟩ 0

namespace Network

/-- `Network::new()`. -/
def new : Network := ⟨[], 1, [], []⟩

/-- `Network::add_layer`: unconditionally pushes the declared size and the
specification. -/
def add_layer (self : Network) (layer : LayerTypes) : Network :=
  { self with
    layer_sizes := self.layer_sizes ++ [layer.get_size]
    uncompiled_layers := self.uncompiled_layers ++ [layer] }

/-- `Network::compile`: for `i in 0..uncompiled_layers.len() - 1` pushes
`uncompiled_layers[i].to_layer(layer_sizes[i+1])`.  The random source is
indexed by layer and by weight/bias choice. -/
def compile (self : Network) (rng : Nat → Nat → Nat → Nat → ℚ) : Network :=
  { self with
    layers := self.layers ++
      (List.range (self.uncompiled_layers.length - 1)).map fun i =>
        (self.uncompiled_layers.getD i dfltLayerType).to_layer (rng i 0) (rng i 1)
          (self.layer_sizes.getD (i + 1) 0) }

/-- The `for i in 0..layers.len()` body of `feed_forward`: each step runs
`layers[i].forward` and rebuilds `data_at` as
`Matrix::from(result.to_param_2d())`.  Returns the mutated layers and the
final `data_at`. -/
def forwardLayers : List Dense → Matrix → Option (List Dense × Matrix)
  | [], data_at => some ([], data_at)
  | l :: rest, data_at =>
    match l.forward data_at with
    | none => none
    | some (l2, outp) =>
      match forwardLayers rest (Matrix.fromVec outp.to_param_2d) with
      | none => none
      | some (rest2, fin) => some (l2 :: rest2, fin)

/-- `Network::feed_forward` from network.rs.  The input's `to_param()` is
the flat vector itself.  Errors model the source's panics: length check
(`InvalidInput`), matrix dimension panics (`DimensionMismatch`), and raw
index panics (`OutOfBounds`). -/
def feed_forward (self : Network) (input_obj : List ℚ) : Except NetError (Network × List ℚ) :=
  match self.layer_sizes with
  | [] => .error .OutOfBounds
  | s0 :: _ =>
    if input_obj.length ≠ s0 then .error .InvalidInput
    else
      match forwardLayers self.layers ((Matrix.fromVec [input_obj]).transpose) with
      | none => .error .DimensionMismatch
      | some (ls, m) =>
        match m.transpose.data with
        | [] => .error .OutOfBounds
        | r :: _ => .ok ({ self with layers := ls }, r)

/-- One iteration of the backward loop of `back_propegate` at index `i`:
reads `layers[i+1]`'s weights/biases, runs `layers[i].backward`, writes the
returned weights/biases onto `layers[i+1]` (one index ahead). -/
def backStep (target_matrix : Matrix) (layers : List Dense) (i : Nat)
    (gradients errors : Matrix) : Option (List Dense × Matrix × Matrix) :=
  let layers_prev := (layers.getD (i + 1) dfltDense).weights
  let bias_prev := (layers.getD (i + 1) dfltDense).biases
  match (layers.getD i dfltDense).backward target_matrix gradients errors layers_prev bias_prev with
  | none => none
  | some (d2, new_bias, new_weights, g2, e2) =>
    let ls1 := layers.set i d2
    let ls2 := ls1.set (i + 1)
      { ls1.getD (i + 1) dfltDense with weights := new_weights, biases := new_bias }
    some (ls2, g2, e2)

/-- The `for i in (0..layers.len() - 1).rev()` loop: `backIter tm k` runs
the iterations `i = k-1, k-2, ..., 0`. -/
def backIter (target_matrix : Matrix) : Nat → List Dense → Matrix → Matrix → Option (List Dense)
  | 0, layers, _, _ => some layers
  | k + 1, layers, gradients, errors =>
    match backStep target_matrix layers k gradients errors with
    | none => none
    | some (ls, g2, e2) => backIter target_matrix k ls g2 e2

/-- `Network::back_propegate` from network.rs (spelling as in the source).
Checks the target length against the last declared size, computes
`errors = targets - outputs^T` and the initial gradients from the last
layer's activation, then walks the layers backward excluding the last
layer, each step writing the returned weights/biases one index ahead. -/
def back_propegate (self : Network) (outputs targets : List ℚ) : Except NetError Network :=
  match self.layer_sizes.getLast? with
  | none => .error .OutOfBounds
  | some slast =>
    if targets.length ≠ slast then .error .InvalidInput
    else
      let parsed := (Matrix.fromVec [outputs]).transpose
      match Matrix.sub (Matrix.fromVec [targets]) parsed with
      | none => .error .DimensionMismatch
      | some errors0 =>
        match self.layers.getLast? with
        | none => .error .OutOfBounds
        | some lastL =>
          match lastL.get_activation with
          | none => .error .InvalidState
          | some act =>
            let gradients0 := parsed.map act.get_function.derivative
            let target_matrix := Matrix.fromVec [targets]
            match backIter target_matrix (self.layers.length - 1) self.layers gradients0 errors0 with
            | none => .error .DimensionMismatch
            | some ls => .ok { self with layers := ls }

/-- One training sample of `fit`'s inner loop: `feed_forward` then
`back_propegate` on the (possibly mutated) network. -/
def trainPair (net : Network) (inp tgt : List ℚ) : Except NetError Network :=
  match net.feed_forward inp with
  | .error e => .error e
  | .ok (net1, outputs) => net1.back_propegate outputs tgt

end Network

/-- Error-propagating left fold threading the network through a loop body;
a Rust panic (error) aborts the remaining iterations. -/
def foldE {α : Type} (f : Network → α → Except NetError Network) :
    Network → List α → Except NetError Network
  | net, [] => .ok net
  | net, a :: rest =>
    match f net a with
    | .error e => .error e
    | .ok n2 => foldE f n2 rest

/-- `Network::fit` from network.rs: `epochs` outer iterations, each running
`ITERATIONS_PER_EPOCH` inner iterations, each performing one
`feed_forward` + `back_propegate` per training sample in dataset order. -/
def Network.fit (net : Network) (train_in train_out : List (List ℚ)) (epochs : Nat) :
    Except NetError Network :=
  foldE (fun n _ =>
      foldE (fun n2 _ =>
          foldE (fun n3 i => n3.trainPair (train_in.getD i []) (train_out.getD i []))
            n2 (List.range train_in.length))
        n (List.range ITERATIONS_PER_EPOCH))
    net (List.range epochs)

/-- Extract the network from a `back_propegate`/`fit` result, defaulting on
error. -/
def okOr (e : Except NetError Network) (d : Network) : Network :=
  match e with
  | .ok n => n
  | .error _ => d

/-- Extract the network from a `feed_forward` result, defaulting on error. -/
def ffNetD (e : Except NetError (Network × List ℚ)) (d : Network) : Network :=
  match e with
  | .ok (n, _) => n
  | .error _ => d

/-- Observe only success and the returned vector's length of a
`feed_forward` result. -/
def ffLen (e : Except NetError (Network × List ℚ)) : Option Nat :=
  match e with
  | .ok (_, out) => some out.length
  | .error _ => none

end Triton

namespace Triton

/-! ## Concrete instances used by witnesses and counterexamples -/

/-- A concrete deterministic random source: every cell is `1/2`. -/
def crng : Nat → Nat → Nat → Nat → ℚ := fun _ _ _ _ => 1 / 2

/-- Modelled from the spec: the RELU function/derivative pair (§4.2); the
derivative follows the convention of being evaluated on the activated
output. -/
def RELU : Activation := ⟨fun x => max x 0, fun x => if 0 < x then 1 else 0⟩

/-- A freshly compiled `[1, 1, 1]` network (two dense layers, RELU,
learning rate `1/10`, all parameters initialized to `1/2`). -/
def exNet0 : Network :=
  (([LayerTypes.DENSE 1 RELU (1 / 10), LayerTypes.DENSE 1 RELU (1 / 10),
     LayerTypes.DENSE 1 RELU (1 / 10)].foldl Network.add_layer Network.new).compile crng)

/-- `exNet0` after one `feed_forward [1]` (so every layer's `data` cache is
populated, as `fit` would do before back-propagating). -/
def exNet : Network := ffNetD (exNet0.feed_forward [1]) exNet0

/-- A freshly compiled `[2, 1]` network. -/
def c52 : Network :=
  (([LayerTypes.DENSE 2 RELU (1 / 10),
     LayerTypes.DENSE 1 RELU (1 / 10)].foldl Network.add_layer Network.new).compile crng)

/-! ## C1 (counterexample part): the last layer IS updated by the loop -/

unseal Rat.add Rat.mul Rat.inv Rat.sub in
/-- Claim C1 is false as stated: on the concrete compiled network `exNet`
(two layers), one `back_propegate` call changes the last layer's weights
(from `[[1/2]]` to `[[3/5]]`), so the last layer's parameters are NOT left
unchanged by the backward loop. -/
theorem backprop_updates_last_layer_cex :
    ((okOr (exNet.back_propegate [1] [2]) exNet).layers.getD 1 dfltDense).weights ≠
      (exNet.layers.getD 1 dfltDense).weights := by
  decide

/-! ## C7: add_layer after compile is not rejected -/

/-- Claim C7 is false as stated: on the concrete compiled network `exNet0`,
`add_layer` does extend the network's layer specifications (no InvalidState
rejection exists in the source). -/
theorem add_layer_after_compile_cex :
    (exNet0.add_layer (.DENSE 1 RELU (1 / 10))).layer_sizes ≠ exNet0.layer_sizes := by
  decide

/-- Claim C7 (amended): `add_layer` never rejects; on every network —
compiled or not — it appends the declared size to `layer_sizes` and the
specification to `uncompiled_layers`, leaving the compiled layers
untouched. -/
theorem add_layer_always_appends (net : Network) (l : LayerTypes) :
    (net.add_layer l).layer_sizes = net.layer_sizes ++ [l.get_size] ∧
    (net.add_layer l).uncompiled_layers = net.uncompiled_layers ++ [l] ∧
    (net.add_layer l).layers = net.layers := by
  refine ⟨rfl, rfl, rfl⟩

/-! ## C8: feed_forward rejects inputs of the wrong length -/

/-- Claim C8: whenever the input length differs from the first declared
layer size, `feed_forward` fails with `InvalidInput` — the length check
precedes the propagation loop, so no layer is touched. -/
theorem feed_forward_invalid_input (net : Network) (v : List ℚ) (s0 : Nat) (rest : List Nat)
    (hsz : net.layer_sizes = s0 :: rest) (hv : v.length ≠ s0) :
    net.feed_forward v = .error .InvalidInput := by
  unfold Network.feed_forward
  rw [hsz]
  simp [hv]

/-- Witness for C8 at a concrete network and input. -/
theorem feed_forward_invalid_input_witness :
    exNet0.layer_sizes = 1 :: [1, 1] ∧ ([1, 2] : List ℚ).length ≠ 1 ∧
      exNet0.feed_forward [1, 2] = .error .InvalidInput :=
  ⟨by decide, by decide, feed_forward_invalid_input exNet0 [1, 2] 1 [1, 1] (by decide) (by decide)⟩

end Triton

namespace Triton

/-! ## List indexing helpers for the backward-loop frame properties -/

/-- `getD` after `set` at a different index is unchanged. -/
theorem getD_set_ne {α : Type} : ∀ (l : List α) (i j : Nat) (x d : α), i ≠ j →
    (l.set i x).getD j d = l.getD j d := by
  intro l
  induction l with
  | nil => intro i j x d _; cases i <;> rfl
  | cons a l ih =>
    intro i j x d hij
    cases i with
    | zero =>
      cases j with
      | zero => exact absurd rfl hij
      | succ j => simp [List.set]
    | succ i =>
      cases j with
      | zero => simp [List.set]
      | succ j =>
        simp only [List.set, List.getD_cons_succ]
        exact ih i j x d (fun h => hij (by rw [h]))

/-- `getD` after `set` at the same index yields the new value when in
bounds, the fallback otherwise. -/
theorem getD_set_self {α : Type} : ∀ (l : List α) (i : Nat) (x d : α),
    (l.set i x).getD i d = if i < l.length then x else d := by
  intro l
  induction l with
  | nil => intro i x d; cases i <;> simp [List.set]
  | cons a l ih =>
    intro i x d
    cases i with
    | zero => simp [List.set]
    | succ i =>
      simp only [List.set, List.getD_cons_succ, List.length_cons]
      rw [ih i x d]
      simp [Nat.succ_lt_succ_iff]

/-- Out-of-bounds `getD` yields the fallback. -/
theorem getD_oob {α : Type} : ∀ (l : List α) (i : Nat) (d : α), l.length ≤ i →
    l.getD i d = d := by
  intro l
  induction l with
  | nil => intro i d _; cases i <;> rfl
  | cons a l ih =>
    intro i d hi
    cases i with
    | zero => simp at hi
    | succ i =>
      simp only [List.getD_cons_succ]
      exact ih i d (by simpa using hi)

/-- `set` preserves `length` (restatement of the library lemma in the form
used below). -/
theorem length_set' {α : Type} (l : List α) (i : Nat) (x : α) :
    (l.set i x).length = l.length := List.length_set l i x

/-! ## Frame lemmas for `Dense::backward` and the backward loop -/

/-- `Dense::backward` mutates only the layer's `loss` field: the weights,
biases and cached data of the layer it is invoked on are untouched. -/
theorem Dense.backward_frame {s : Dense} {tm g e w b : Matrix}
    {out : Dense × Matrix × Matrix × Matrix × Matrix}
    (h : s.backward tm g e w b = some out) :
    out.1.weights = s.weights ∧ out.1.biases = s.biases ∧ out.1.data = s.data := by
  simp only [Dense.backward] at h
  repeat' split at h
  any_goals cases h
  exact ⟨rfl, rfl, rfl⟩

/-- One backward-loop step preserves the length of the layer list. -/
theorem backStep_length {tm : Matrix} {ls : List Dense} {i : Nat} {g e : Matrix}
    {out : List Dense × Matrix × Matrix}
    (h : Network.backStep tm ls i g e = some out) : out.1.length = ls.length := by
  simp only [Network.backStep] at h
  split at h
  · cases h
  · cases h
    simp [length_set']

/-- One backward-loop step at index `i` preserves the weights and biases of
every layer except the one at index `i + 1` (the "one ahead" write
target); at index `i` itself only the `loss` field changes. -/
theorem backStep_wb_frame {tm : Matrix} {ls : List Dense} {i : Nat} {g e : Matrix}
    {out : List Dense × Matrix × Matrix}
    (h : Network.backStep tm ls i g e = some out) (j : Nat) (hj : j ≠ i + 1) :
    (out.1.getD j dfltDense).weights = (ls.getD j dfltDense).weights ∧
      (out.1.getD j dfltDense).biases = (ls.getD j dfltDense).biases := by
  simp only [Network.backStep] at h
  split at h
  · cases h
  next d2 nb nw g2 e2 heq =>
    cases h
    by_cases hji : j = i
    · subst hji
      have hfr := Dense.backward_frame heq
      rw [getD_set_ne _ (j + 1) j _ _ (by omega)]
      rw [getD_set_self]
      split
      · exact ⟨hfr.1, hfr.2.1⟩
      next hge =>
        rw [getD_oob ls j dfltDense (by first | omega | (simp only [length_set'] at hge; omega))]
        exact ⟨rfl, rfl⟩
    · rw [getD_set_ne _ (i + 1) j _ _ (fun hh => hj hh.symm),
        getD_set_ne _ i j _ _ (fun hh => hji hh.symm)]
      exact ⟨rfl, rfl⟩

/-- One backward-loop step at index `i` preserves the cached `data` and
`loss` of every layer except the one at index `i` (the layer whose
`backward` is invoked); at index `i + 1` only weights and biases are
written. -/
theorem backStep_dl_frame {tm : Matrix} {ls : List Dense} {i : Nat} {g e : Matrix}
    {out : List Dense × Matrix × Matrix}
    (h : Network.backStep tm ls i g e = some out) (j : Nat) (hj : j ≠ i) :
    (out.1.getD j dfltDense).data = (ls.getD j dfltDense).data ∧
      (out.1.getD j dfltDense).loss = (ls.getD j dfltDense).loss := by
  simp only [Network.backStep] at h
  split at h
  · cases h
  next d2 nb nw g2 e2 heq =>
    cases h
    by_cases hji : j = i + 1
    · subst hji
      rw [getD_set_self]
      rw [getD_set_ne _ i (i + 1) _ _ (by omega)]
      split
      · exact ⟨rfl, rfl⟩
      next hge =>
        rw [getD_oob ls (i + 1) dfltDense (by first | omega | (simp only [length_set'] at hge; omega))]
        exact ⟨rfl, rfl⟩
    · rw [getD_set_ne _ (i + 1) j _ _ (fun hh => hji hh.symm),
        getD_set_ne _ i j _ _ (fun hh => hj hh.symm)]
      exact ⟨rfl, rfl⟩

/-- The backward loop never changes the weights or biases of the layer at
index `0`: every write goes to index `i + 1 ≥ 1`. -/
theorem backIter_wb_frame {tm : Matrix} : ∀ (k : Nat) (ls : List Dense) (g e : Matrix)
    (out : List Dense), Network.backIter tm k ls g e = some out →
    (out.getD 0 dfltDense).weights = (ls.getD 0 dfltDense).weights ∧
      (out.getD 0 dfltDense).biases = (ls.getD 0 dfltDense).biases := by
  intro k
  induction k with
  | zero =>
    intro ls g e out h
    unfold Network.backIter at h
    injection h with h
    subst h
    exact ⟨rfl, rfl⟩
  | succ k ih =>
    intro ls g e out h
    unfold Network.backIter at h
    split at h
    · cases h
    next ls2 g2 e2 heq =>
      have h1 := backStep_wb_frame heq 0 (by omega)
      have h2 := ih ls2 g2 e2 out h
      exact ⟨h2.1.trans h1.1, h2.2.trans h1.2⟩

/-- The backward loop run for `k` iterations (indices `k-1, ..., 0`) never
touches the cached `data` or `loss` of any layer at index `≥ k`. -/
theorem backIter_dl_frame {tm : Matrix} : ∀ (k : Nat) (ls : List Dense) (g e : Matrix)
    (out : List Dense) (j : Nat), Network.backIter tm k ls g e = some out → k ≤ j →
    (out.getD j dfltDense).data = (ls.getD j dfltDense).data ∧
      (out.getD j dfltDense).loss = (ls.getD j dfltDense).loss := by
  intro k
  induction k with
  | zero =>
    intro ls g e out j h _
    unfold Network.backIter at h
    injection h with h
    subst h
    exact ⟨rfl, rfl⟩
  | succ k ih =>
    intro ls g e out j h hk
    unfold Network.backIter at h
    split at h
    · cases h
    next ls2 g2 e2 heq =>
      have h1 := backStep_dl_frame heq j (by omega)
      have h2 := ih ls2 g2 e2 out j h (by omega)
      exact ⟨h2.1.trans h1.1, h2.2.trans h1.2⟩

/-- Successful `back_propegate` only rewrites the layer list, and that list
is produced by the backward loop `backIter` run for `layers.len() - 1`
iterations. -/
theorem back_propegate_ok {net : Network} {o t : List ℚ} {net2 : Network}
    (h : net.back_propegate o t = .ok net2) :
    net2.layer_sizes = net.layer_sizes ∧
    ∃ tm g0 e0, Network.backIter tm (net.layers.length - 1) net.layers g0 e0 = some net2.layers := by
  simp only [Network.back_propegate] at h
  repeat' split at h
  any_goals cases h
  next ls hiter =>
    exact ⟨rfl, _, _, _, hiter⟩

end Triton

namespace Triton

/-! ## C2: the first layer is never trained -/

/-- Claim C2: on a network with at least two layers, `back_propegate` never
changes the weights or biases of the first layer (index 0): the backward
loop writes parameters only to indices `1 .. layers.len() - 1`. -/
theorem backprop_first_layer_frame (net : Network) (o t : List ℚ)
    (h2 : 2 ≤ net.layers.length) :
    ((okOr (net.back_propegate o t) net).layers.getD 0 dfltDense).weights =
      (net.layers.getD 0 dfltDense).weights ∧
    ((okOr (net.back_propegate o t) net).layers.getD 0 dfltDense).biases =
      (net.layers.getD 0 dfltDense).biases := by
  cases hbp : net.back_propegate o t with
  | error e => simp [okOr]
  | ok net2 =>
    obtain ⟨-, tm, g0, e0, hiter⟩ := back_propegate_ok hbp
    have hfr := backIter_wb_frame (net.layers.length - 1) net.layers g0 e0 net2.layers hiter
    simpa [okOr] using hfr

unseal Rat.add Rat.mul Rat.inv Rat.sub in
/-- Witness for C2 on the concrete two-layer network `exNet`. -/
theorem backprop_first_layer_frame_witness :
    2 ≤ exNet.layers.length ∧
    (((okOr (exNet.back_propegate [1] [2]) exNet).layers.getD 0 dfltDense).weights =
        (exNet.layers.getD 0 dfltDense).weights ∧
      ((okOr (exNet.back_propegate [1] [2]) exNet).layers.getD 0 dfltDense).biases =
        (exNet.layers.getD 0 dfltDense).biases) :=
  ⟨by decide, backprop_first_layer_frame exNet [1] [2] (by decide)⟩

/-! ## C1 (amended part): the last layer is excluded from iteration -/

/-- Claim C1 (amended): the backward loop excludes the last layer from
iteration — its `backward` is never invoked, so its cached `data` and
`loss` are unchanged by every `back_propegate` call — and each step writes
the returned weights/biases one index ahead; consequently it is the first
layer, not the last, whose weights and biases are never updated (the last
layer's parameters ARE written, by the iteration at index
`layers.len() - 2`; see the counterexample). -/
theorem backprop_last_layer_data_loss_frame (net : Network) (o t : List ℚ)
    (h1 : 1 ≤ net.layers.length) :
    ((okOr (net.back_propegate o t) net).layers.getD (net.layers.length - 1) dfltDense).data =
      (net.layers.getD (net.layers.length - 1) dfltDense).data ∧
    ((okOr (net.back_propegate o t) net).layers.getD (net.layers.length - 1) dfltDense).loss =
      (net.layers.getD (net.layers.length - 1) dfltDense).loss := by
  cases hbp : net.back_propegate o t with
  | error e => simp [okOr]
  | ok net2 =>
    obtain ⟨-, tm, g0, e0, hiter⟩ := back_propegate_ok hbp
    have hfr := backIter_dl_frame (net.layers.length - 1) net.layers g0 e0 net2.layers
      (net.layers.length - 1) hiter (le_refl _)
    simpa [okOr] using hfr

unseal Rat.add Rat.mul Rat.inv Rat.sub in
/-- Witness for the amended C1 on the concrete two-layer network `exNet`. -/
theorem backprop_last_layer_data_loss_frame_witness :
    1 ≤ exNet.layers.length ∧
    (((okOr (exNet.back_propegate [1] [2]) exNet).layers.getD (exNet.layers.length - 1) dfltDense).data =
        (exNet.layers.getD (exNet.layers.length - 1) dfltDense).data ∧
      ((okOr (exNet.back_propegate [1] [2]) exNet).layers.getD (exNet.layers.length - 1) dfltDense).loss =
        (exNet.layers.getD (exNet.layers.length - 1) dfltDense).loss) :=
  ⟨by decide, backprop_last_layer_data_loss_frame exNet [1] [2] (by decide)⟩

end Triton

namespace Triton

/-! ## C3: the exact arithmetic of Dense::backward -/

/-- Claim C3: whenever the intermediate matrix operations succeed,
`Dense::backward` returns exactly:
`new_biases = B + U`, `new_weights = W + U * data^T` where
`U = (G ⊙ E) * learning_rate` elementwise, propagated errors `W^T * E`,
it stores as `loss` the mean of the squared entries of the propagated
errors, and the returned next gradients are the activation derivative
mapped over the cached `data`. -/
theorem dense_backward_spec (self : Dense) (tm G E W B U P NW NB PE : Matrix)
    (hU : Matrix.dot_multiply G E = some U)
    (hP : Matrix.mul (U.map fun x => x * self.learning_rate) self.data.transpose = some P)
    (hNW : Matrix.add W P = some NW)
    (hNB : Matrix.add B (U.map fun x => x * self.learning_rate) = some NB)
    (hPE : Matrix.mul W.transpose E = some PE) :
    self.backward tm G E W B =
      some ({ self with loss := ((PE.to_param.map fun e => e * e).sum) / (PE.to_param.length : ℚ) },
        NB, NW, self.data.map self.activation_fn.get_function.derivative, PE) := by
  simp only [Dense.backward, hU, hP, hNW, hNB, hPE]

/-- Concrete 1×1 matrices for the Dense-level witnesses. -/
def mOne : Matrix := ⟨1, 1, [[1]]⟩

/-- Concrete 1×1 matrix with entry `1/2`. -/
def mHalf : Matrix := ⟨1, 1, [[1 / 2]]⟩

/-- A concrete dense layer (weights/biases `1/2`, cached data `1`, RELU,
learning rate `1/10`, the betas/epsilon as set by `Dense::new`). -/
def cd3 : Dense :=
  ⟨mHalf, mHalf, mOne, 1, RELU, 1 / 10, 9 / 10, 999 / 1000, 1 / 10000000000, 0⟩

/-- `U = (G ⊙ E) * lr` before scaling: `[[1]]`. -/
def wU : Matrix := ⟨1, 1, [[1]]⟩

/-- `U * data^T` at the witness values: `[[1/10]]`. -/
def wP : Matrix := ⟨1, 1, [[1 / 10]]⟩

/-- The new weights at the witness values: `[[3/5]]`. -/
def wNW : Matrix := ⟨1, 1, [[3 / 5]]⟩

/-- The new biases at the witness values: `[[3/5]]`. -/
def wNB : Matrix := ⟨1, 1, [[3 / 5]]⟩

/-- The propagated errors at the witness values: `[[1/2]]`. -/
def wPE : Matrix := ⟨1, 1, [[1 / 2]]⟩

unseal Rat.add Rat.mul Rat.inv Rat.sub in
/-- Witness for C3 at concrete 1×1 matrices. -/
theorem dense_backward_spec_witness :
    (Matrix.dot_multiply mOne mOne = some wU ∧
      Matrix.mul (wU.map fun x => x * cd3.learning_rate) cd3.data.transpose = some wP ∧
      Matrix.add mHalf wP = some wNW ∧
      Matrix.add mHalf (wU.map fun x => x * cd3.learning_rate) = some wNB ∧
      Matrix.mul mHalf.transpose mOne = some wPE) ∧
    cd3.backward mOne mOne mOne mHalf mHalf =
      some ({ cd3 with loss := ((wPE.to_param.map fun e => e * e).sum) / (wPE.to_param.length : ℚ) },
        wNB, wNW, cd3.data.map cd3.activation_fn.get_function.derivative, wPE) :=
  ⟨⟨by decide, by decide, by decide, by decide, by decide⟩,
    dense_backward_spec cd3 mOne mOne mOne mHalf mHalf wU wP wNW wNB wPE
      (by decide) (by decide) (by decide) (by decide) (by decide)⟩

/-! ## C4: the exact computation of Dense::forward -/

/-- Claim C4: on a row-vector input `v`, whenever the matrix operations
succeed, `Dense::forward` computes
`activated = activation(weights * v^T + biases)` elementwise, stores
`activated` as the cached `data` (its only side effect), and returns
`activated^T`. -/
theorem dense_forward_spec (self : Dense) (v : List ℚ) (P S : Matrix)
    (hP : Matrix.mul self.weights (Matrix.fromVec [v]).transpose = some P)
    (hS : Matrix.add P self.biases = some S) :
    self.forward (Matrix.fromVec [v]) =
      some ({ self with data := S.map self.activation_fn.get_function.function },
        (S.map self.activation_fn.get_function.function).transpose) := by
  have hfrom : Matrix.fromVec (Matrix.fromVec [v]).to_param_2d = Matrix.fromVec [v] := rfl
  simp only [Dense.forward, hfrom, hP, hS]

/-- `weights * v^T` at the forward witness values: `[[1/2]]`. -/
def wP4 : Matrix := ⟨1, 1, [[1 / 2]]⟩

/-- `weights * v^T + biases` at the forward witness values: `[[1]]`. -/
def wS4 : Matrix := ⟨1, 1, [[1]]⟩

unseal Rat.add Rat.mul Rat.inv Rat.sub in
/-- Witness for C4 at a concrete layer and input. -/
theorem dense_forward_spec_witness :
    (Matrix.mul cd3.weights (Matrix.fromVec [[1]]).transpose = some wP4 ∧
      Matrix.add wP4 cd3.biases = some wS4) ∧
    cd3.forward (Matrix.fromVec [[1]]) =
      some ({ cd3 with data := wS4.map cd3.activation_fn.get_function.function },
        (wS4.map cd3.activation_fn.get_function.function).transpose) :=
  ⟨⟨by decide, by decide⟩,
    dense_forward_spec cd3 [1] wP4 wS4 (by decide) (by decide)⟩

/-! ## C10: backward is independent of the Adam fields -/

/-- Claim C10: the observable results of `Dense::backward` — the returned
quadruple and the updated `loss` — do not depend on the `beta1`, `beta2`,
`epsilon` and `time` fields: two layers identical except in those four
fields produce identical results on identical arguments (the update is
plain scaled gradient descent, not Adam). -/
theorem backward_ignores_adam_fields (w b d : Matrix) (l : ℚ) (a : Activation)
    (lr b1 b2 ep b1' b2' ep' : ℚ) (t t' : Nat) (tm G E W B : Matrix) :
    Option.map (fun r => (r.1.loss, r.2))
        (Dense.backward ⟨w, b, d, l, a, lr, b1, b2, ep, t⟩ tm G E W B) =
      Option.map (fun r => (r.1.loss, r.2))
        (Dense.backward ⟨w, b, d, l, a, lr, b1', b2', ep', t'⟩ tm G E W B) := by
  dsimp only [Dense.backward]
  cases hU : Matrix.dot_multiply G E with
  | none => rfl
  | some u =>
    dsimp only
    cases hP : Matrix.mul (u.map fun x => x * lr) d.transpose with
    | none => rfl
    | some p =>
      dsimp only
      cases hNW : Matrix.add W p with
      | none => rfl
      | some nw =>
        dsimp only
        cases hNB : Matrix.add B (u.map fun x => x * lr) with
        | none => rfl
        | some nb =>
          dsimp only
          cases hPE : Matrix.mul W.transpose E with
          | none => rfl
          | some pe => rfl

end Triton

namespace Triton

/-! ## C6: compile produces exactly N-1 layers with chained dimensions -/

/-- Folding `add_layer` over a list of specifications appends the declared
sizes and the specifications, leaving the compiled layers untouched. -/
theorem foldl_add_layer : ∀ (specs : List LayerTypes) (net : Network),
    (specs.foldl Network.add_layer net).layer_sizes =
        net.layer_sizes ++ specs.map LayerTypes.get_size ∧
    (specs.foldl Network.add_layer net).uncompiled_layers =
        net.uncompiled_layers ++ specs ∧
    (specs.foldl Network.add_layer net).layers = net.layers := by
  intro specs
  induction specs with
  | nil => intro net; simp
  | cons s specs ih =>
    intro net
    simp only [List.foldl_cons, List.map_cons]
    have h := ih (net.add_layer s)
    refine ⟨?_, ?_, ?_⟩
    · rw [h.1]; simp [Network.add_layer, List.append_assoc]
    · rw [h.2.1]; simp [Network.add_layer, List.append_assoc]
    · rw [h.2.2]; rfl

/-- `getD` through `map`. -/
theorem getD_map {α β : Type} (f : α → β) : ∀ (l : List α) (i : Nat) (d : α),
    (l.map f).getD i (f d) = f (l.getD i d) := by
  intro l
  induction l with
  | nil => intro i d; cases i <;> rfl
  | cons a l ih =>
    intro i d
    cases i with
    | zero => rfl
    | succ i => simp only [List.map_cons, List.getD_cons_succ]; exact ih i d

/-- `getD` of a mapped `range` at an in-bounds index. -/
theorem getD_map_range {α : Type} : ∀ (n : Nat) (f : Nat → α) (i : Nat) (d : α), i < n →
    ((List.range n).map f).getD i d = f i := by
  intro n
  induction n with
  | zero => intro f i d h; exact absurd h (by omega)
  | succ n ih =>
    intro f i d h
    rw [List.range_succ_eq_map]
    cases i with
    | zero => rfl
    | succ i =>
      simp only [List.map_cons, List.getD_cons_succ, List.map_map]
      have := ih (f ∘ Nat.succ) i d (by omega)
      simpa [Function.comp] using this

/-- The dimensions produced by `to_layer`: the weight matrix is
`[layer_cols × declared size]`, the bias matrix `[layer_cols × 1]`. -/
theorem to_layer_dims (lt : LayerTypes) (rW rB : Nat → Nat → ℚ) (cols : Nat) :
    (lt.to_layer rW rB cols).weights.rows = cols ∧
    (lt.to_layer rW rB cols).weights.columns = lt.get_size ∧
    (lt.to_layer rW rB cols).biases.rows = cols ∧
    (lt.to_layer rW rB cols).biases.columns = 1 := by
  cases lt
  exact ⟨rfl, rfl, rfl, rfl⟩

/-- Claim C6: compiling a network freshly built from `N ≥ 1` layer
specifications produces exactly `N - 1` concrete layers, the `i`-th being
`specs[i].to_layer(layer_sizes[i+1])`, pushed in order; its dimensions are
derived from this specification's width (weight columns) and the next
specification's width (weight rows). -/
theorem compile_layers_spec (specs : List LayerTypes) (rng : Nat → Nat → Nat → Nat → ℚ)
    (i : Nat) (hne : specs ≠ []) :
    ((specs.foldl Network.add_layer Network.new).compile rng).layers.length = specs.length - 1 ∧
    (i < specs.length - 1 →
      ((specs.foldl Network.add_layer Network.new).compile rng).layers.getD i dfltDense =
        (specs.getD i dfltLayerType).to_layer (rng i 0) (rng i 1)
          ((specs.map LayerTypes.get_size).getD (i + 1) 0) ∧
      (((specs.foldl Network.add_layer Network.new).compile rng).layers.getD i dfltDense).weights.rows =
        (specs.map LayerTypes.get_size).getD (i + 1) 0 ∧
      (((specs.foldl Network.add_layer Network.new).compile rng).layers.getD i dfltDense).weights.columns =
        (specs.map LayerTypes.get_size).getD i 0) := by
  have hfold := foldl_add_layer specs Network.new
  have hsz : (specs.foldl Network.add_layer Network.new).layer_sizes =
      specs.map LayerTypes.get_size := by
    rw [hfold.1]; rfl
  have hun : (specs.foldl Network.add_layer Network.new).uncompiled_layers = specs := by
    rw [hfold.2.1]; rfl
  have hly : (specs.foldl Network.add_layer Network.new).layers = [] := hfold.2.2
  have hcomp : ((specs.foldl Network.add_layer Network.new).compile rng).layers =
      (List.range (specs.length - 1)).map fun j =>
        (specs.getD j dfltLayerType).to_layer (rng j 0) (rng j 1)
          ((specs.map LayerTypes.get_size).getD (j + 1) 0) := by
    simp only [Network.compile, hsz, hun, hly, List.nil_append]
  refine ⟨?_, ?_⟩
  · rw [hcomp]; simp
  · intro hi
    have hgd := getD_map_range (specs.length - 1)
      (fun j => (specs.getD j dfltLayerType).to_layer (rng j 0) (rng j 1)
        ((specs.map LayerTypes.get_size).getD (j + 1) 0)) i dfltDense hi
    rw [hcomp, hgd]
    refine ⟨rfl, (to_layer_dims _ _ _ _).1, ?_⟩
    rw [(to_layer_dims _ _ _ _).2.1]
    have := getD_map LayerTypes.get_size specs i dfltLayerType
    exact this.symm

/-- The concrete three-specification list used by the C6 witness. -/
def specs3 : List LayerTypes :=
  [LayerTypes.DENSE 1 RELU (1 / 10), LayerTypes.DENSE 1 RELU (1 / 10),
    LayerTypes.DENSE 1 RELU (1 / 10)]

unseal Rat.add Rat.mul Rat.inv Rat.sub in
/-- Witness for C6 on a concrete three-specification network. -/
theorem compile_layers_spec_witness :
    specs3 ≠ [] ∧
    (((specs3.foldl Network.add_layer Network.new).compile crng).layers.length =
        specs3.length - 1 ∧
      (0 < specs3.length - 1 →
        ((specs3.foldl Network.add_layer Network.new).compile crng).layers.getD 0 dfltDense =
          (specs3.getD 0 dfltLayerType).to_layer (crng 0 0) (crng 0 1)
            ((specs3.map LayerTypes.get_size).getD 1 0) ∧
        (((specs3.foldl Network.add_layer Network.new).compile crng).layers.getD 0 dfltDense).weights.rows =
          (specs3.map LayerTypes.get_size).getD 1 0 ∧
        (((specs3.foldl Network.add_layer Network.new).compile crng).layers.getD 0 dfltDense).weights.columns =
          (specs3.map LayerTypes.get_size).getD 0 0)) :=
  ⟨by simp [specs3], compile_layers_spec specs3 crng 0 (by simp [specs3])⟩

end Triton

namespace Triton

/-! ## C9: the training schedule of fit -/

/-- `foldE` respects pointwise equal bodies. -/
theorem foldE_congr {α : Type} {f f2 : Network → α → Except NetError Network}
    (h : ∀ n a, f n a = f2 n a) : ∀ (l : List α) (net : Network),
    foldE f net l = foldE f2 net l := by
  intro l
  induction l with
  | nil => intro net; rfl
  | cons a l ih =>
    intro net
    simp only [foldE]
    rw [h net a]
    cases f2 net a with
    | error e => rfl
    | ok n2 => exact ih n2

/-- `foldE` over a mapped list. -/
theorem foldE_map {α β : Type} (f : Network → β → Except NetError Network) (g : α → β) :
    ∀ (l : List α) (net : Network),
    foldE f net (l.map g) = foldE (fun n x => f n (g x)) net l := by
  intro l
  induction l with
  | nil => intro net; rfl
  | cons a l ih =>
    intro net
    simp only [List.map_cons, foldE]
    cases f net (g a) with
    | error e => rfl
    | ok n2 => exact ih n2

/-- `foldE` over an appended list runs the two halves in sequence,
aborting on the first error. -/
theorem foldE_append {α : Type} (f : Network → α → Except NetError Network) :
    ∀ (l1 l2 : List α) (net : Network), foldE f net (l1 ++ l2) =
      (match foldE f net l1 with
        | .error e => .error e
        | .ok n2 => foldE f n2 l2) := by
  intro l1
  induction l1 with
  | nil => intro l2 net; rfl
  | cons a l1 ih =>
    intro l2 net
    simp only [List.cons_append, foldE]
    cases f net a with
    | error e => rfl
    | ok n2 => exact ih l2 n2

/-- The index-driven inner sample loop of `fit` equals the fold of
`trainPair` over the zipped dataset, when the two dataset lists have equal
length. -/
theorem zipFold : ∀ (tin tout : List (List ℚ)) (net : Network), tin.length = tout.length →
    foldE (fun n i => Network.trainPair n (tin.getD i []) (tout.getD i [])) net
        (List.range tin.length) =
      foldE (fun n p => Network.trainPair n p.1 p.2) net (tin.zip tout) := by
  intro tin
  induction tin with
  | nil => intro tout net _; rfl
  | cons a tin ih =>
    intro tout net h
    cases tout with
    | nil => simp at h
    | cons b tout =>
      rw [List.length_cons, List.range_succ_eq_map]
      simp only [List.zip_cons_cons, foldE, List.getD_cons_zero]
      cases Network.trainPair net a b with
      | error e => rfl
      | ok n2 =>
        dsimp only
        rw [foldE_map]
        have hc : ∀ (n : Network) (i : Nat),
            Network.trainPair n ((a :: tin).getD (Nat.succ i) []) ((b :: tout).getD (Nat.succ i) []) =
              Network.trainPair n (tin.getD i []) (tout.getD i []) := fun n i => rfl
        rw [foldE_congr hc]
        exact ih tout n2 (by simpa using h)

/-- Flatten of a one-longer replication. -/
theorem flatten_replicate_succ {α : Type} (k : Nat) (l : List α) :
    (List.replicate (k + 1) l).flatten = l ++ (List.replicate k l).flatten := by
  simp [List.replicate_succ]

/-- Flatten of a replication of a sum. -/
theorem flatten_replicate_add {α : Type} (a b : Nat) (l : List α) :
    (List.replicate (a + b) l).flatten =
      (List.replicate a l).flatten ++ (List.replicate b l).flatten := by
  rw [List.replicate_add, List.flatten_append]

/-- Nested replication flattens to a product replication. -/
theorem flatten_replicate_mul {α : Type} : ∀ (a b : Nat) (l : List α),
    (List.replicate a ((List.replicate b l).flatten)).flatten =
      (List.replicate (a * b) l).flatten := by
  intro a
  induction a with
  | zero => intro b l; simp
  | succ a ih =>
    intro b l
    rw [flatten_replicate_succ, ih]
    have hmul : (a + 1) * b = b + a * b := by ring
    rw [hmul, flatten_replicate_add]

/-- Length of a flattened replication. -/
theorem flatten_replicate_length {α : Type} : ∀ (k : Nat) (l : List α),
    ((List.replicate k l).flatten).length = k * l.length := by
  intro k
  induction k with
  | zero => intro l; simp
  | succ k ih =>
    intro l
    rw [flatten_replicate_succ, List.length_append, ih]
    ring

/-- Repeating an inner `foldE` pass `k` times equals one `foldE` over the
`k`-fold replicated list. -/
theorem repFold {α : Type} (f : Network → α → Except NetError Network) (l : List α) :
    ∀ (k : Nat) (net : Network),
      foldE (fun n (_ : Nat) => foldE f n l) net (List.range k) =
        foldE f net ((List.replicate k l).flatten) := by
  intro k
  induction k with
  | zero => intro net; rfl
  | succ k ih =>
    intro net
    rw [List.range_succ_eq_map, flatten_replicate_succ, foldE_append]
    simp only [foldE]
    cases foldE f net l with
    | error e => rfl
    | ok n2 =>
      dsimp only
      rw [foldE_map]
      exact ih n2

/-- Claim C9: `fit` runs `epochs` outer iterations × 10000 inner iterations
× one `feed_forward`+`back_propegate` (`trainPair`) per sample in dataset
order: it equals a single fold of `trainPair` over the dataset replicated
`epochs * ITERATIONS_PER_EPOCH` times, a schedule of exactly
`epochs * 10000 * sample_count` gradient updates (aborting early only if a
panic occurs). -/
theorem fit_schedule_spec (net : Network) (tin tout : List (List ℚ)) (E : Nat)
    (hlen : tin.length = tout.length) :
    Network.fit net tin tout E =
      foldE (fun n p => Network.trainPair n p.1 p.2) net
        ((List.replicate (E * ITERATIONS_PER_EPOCH) (tin.zip tout)).flatten) ∧
    ((List.replicate (E * ITERATIONS_PER_EPOCH) (tin.zip tout)).flatten).length =
      E * 10000 * tin.length := by
  refine ⟨?_, ?_⟩
  · have h1 : Network.fit net tin tout E =
        foldE (fun n (_ : Nat) =>
          foldE (fun n2 p => Network.trainPair n2 p.1 p.2) n
            ((List.replicate ITERATIONS_PER_EPOCH (tin.zip tout)).flatten)) net (List.range E) := by
      unfold Network.fit
      apply foldE_congr (fun n a => ?_) (List.range E) net
      have h2 : foldE (fun n2 (_ : Nat) =>
          foldE (fun n3 i => Network.trainPair n3 (tin.getD i []) (tout.getD i []))
            n2 (List.range tin.length)) n (List.range ITERATIONS_PER_EPOCH) =
          foldE (fun n2 (_ : Nat) =>
            foldE (fun n3 p => Network.trainPair n3 p.1 p.2) n2 (tin.zip tout)) n
              (List.range ITERATIONS_PER_EPOCH) := by
        apply foldE_congr (fun n2 b => ?_)
        exact zipFold tin tout n2 hlen
      rw [h2, repFold]
    rw [h1, repFold, flatten_replicate_mul]
  · rw [flatten_replicate_length, List.length_zip, hlen, Nat.min_self]
    rfl

/-- Witness for C9 at a concrete one-sample dataset and one epoch. -/
theorem fit_schedule_spec_witness :
    ([[(1 : ℚ)]] : List (List ℚ)).length = ([[(2 : ℚ)]] : List (List ℚ)).length ∧
    (Network.fit Network.new [[(1 : ℚ)]] [[(2 : ℚ)]] 1 =
        foldE (fun n p => Network.trainPair n p.1 p.2) Network.new
          ((List.replicate (1 * ITERATIONS_PER_EPOCH)
            (([[(1 : ℚ)]] : List (List ℚ)).zip [[(2 : ℚ)]])).flatten) ∧
      ((List.replicate (1 * ITERATIONS_PER_EPOCH)
          (([[(1 : ℚ)]] : List (List ℚ)).zip [[(2 : ℚ)]])).flatten).length =
        1 * 10000 * ([[(1 : ℚ)]] : List (List ℚ)).length) :=
  ⟨rfl, fit_schedule_spec Network.new [[(1 : ℚ)]] [[(2 : ℚ)]] 1 rfl⟩

end Triton

namespace Triton

/-! ## C5: feed_forward on a freshly compiled network -/

/-- A matrix that carries a single row of length `n` (the row-vector shape
exchanged between layers), with consistent dimension fields. -/
def RowShape (m : Matrix) (n : Nat) : Prop :=
  m.rows = 1 ∧ m.columns = n ∧ ∃ r, m.data = [r] ∧ r.length = n

/-- A matrix multiply with matching inner dimensions succeeds, with the
result's dimension fields determined by the operands. -/
theorem mul_some (a b : Matrix) (h : a.columns = b.rows) :
    ∃ c, Matrix.mul a b = some c ∧ c.rows = a.rows ∧ c.columns = b.columns := by
  unfold Matrix.mul
  rw [if_pos h]
  exact ⟨_, rfl, rfl, rfl⟩

/-- A matrix addition with matching dimension fields succeeds. -/
theorem add_some (a b : Matrix) (h1 : a.rows = b.rows) (h2 : a.columns = b.columns) :
    ∃ c, Matrix.add a b = some c ∧ c.rows = a.rows ∧ c.columns = a.columns := by
  unfold Matrix.add
  rw [if_pos ⟨h1, h2⟩]
  exact ⟨_, rfl, rfl, rfl⟩

/-- Transposing a single-column matrix yields a single row of length
`rows`. -/
theorem transpose_to_row (d : Matrix) (h : d.columns = 1) :
    RowShape d.transpose d.rows := by
  unfold Matrix.transpose RowShape
  rw [h]
  exact ⟨rfl, rfl, (List.range d.rows).map fun i => d.get i 0, rfl, by simp⟩

/-- Rebuilding a row-shaped matrix through `Matrix::from(to_param_2d())`
preserves its row shape. -/
theorem fromVec_rowshape (m : Matrix) (n : Nat) (h : RowShape m n) :
    RowShape (Matrix.fromVec m.to_param_2d) n := by
  obtain ⟨h1, h2, r, hd, hrl⟩ := h
  refine ⟨?_, ?_, r, ?_, hrl⟩
  · simp [Matrix.fromVec, Matrix.to_param_2d, hd]
  · simp [Matrix.fromVec, Matrix.to_param_2d, hd, hrl]
  · simp [Matrix.fromVec, Matrix.to_param_2d, hd]

/-- `Dense::forward` succeeds on a row-shaped input whose length matches
the weight columns, producing a row of length `weights.rows`. -/
theorem forward_shape (l : Dense) (m : Matrix) (n : Nat)
    (hm : RowShape m n) (hwc : l.weights.columns = n)
    (hbr : l.biases.rows = l.weights.rows) (hbc : l.biases.columns = 1) :
    ∃ l2 outp, l.forward m = some (l2, outp) ∧ RowShape outp l.weights.rows := by
  obtain ⟨hr1, hcn, r, hdata, hrlen⟩ := hm
  have htr : ((Matrix.fromVec m.to_param_2d).transpose).rows = n := by
    simp [Matrix.fromVec, Matrix.to_param_2d, Matrix.transpose, hdata, hrlen]
  have htc : ((Matrix.fromVec m.to_param_2d).transpose).columns = 1 := by
    simp [Matrix.fromVec, Matrix.to_param_2d, Matrix.transpose, hdata]
  obtain ⟨P, hmul, hPr, hPc⟩ :=
    mul_some l.weights ((Matrix.fromVec m.to_param_2d).transpose) (by rw [hwc, htr])
  obtain ⟨S, hadd, hSr, hSc⟩ := add_some P l.biases (by rw [hPr, hbr]) (by rw [hPc, htc, hbc])
  refine ⟨{ l with data := S.map l.activation_fn.get_function.function },
    (S.map l.activation_fn.get_function.function).transpose, ?_, ?_⟩
  · simp only [Dense.forward, hmul, hadd]
  · have hout := transpose_to_row (S.map l.activation_fn.get_function.function)
      (by show S.columns = 1; rw [hSc, hPc, htc])
    have hrows : (S.map l.activation_fn.get_function.function).rows = l.weights.rows := by
      show S.rows = l.weights.rows
      rw [hSr, hPr]
    rwa [hrows] at hout

/-- The chained dimension discipline of a compiled layer stack: the first
layer consumes width `nIn`; each layer's weight rows feed the next; the
stack ends at width `nOut`. -/
def LayerChain : Nat → List Dense → Nat → Prop
  | nIn, [], nOut => nIn = nOut
  | nIn, l :: ls, nOut =>
      l.weights.columns = nIn ∧ l.biases.rows = l.weights.rows ∧
      l.biases.columns = 1 ∧ LayerChain l.weights.rows ls nOut

/-- The feed-forward layer loop succeeds on a row-shaped input that matches
a dimension-chained layer stack, and yields a row of the final width. -/
theorem forwardLayers_shape : ∀ (ls : List Dense) (nIn nOut : Nat) (m : Matrix),
    LayerChain nIn ls nOut → RowShape m nIn →
    ∃ ls2 fin, Network.forwardLayers ls m = some (ls2, fin) ∧ RowShape fin nOut := by
  intro ls
  induction ls with
  | nil =>
    intro nIn nOut m hch hm
    have h : nIn = nOut := hch
    exact ⟨[], m, rfl, h ▸ hm⟩
  | cons l ls ih =>
    intro nIn nOut m hch hm
    obtain ⟨hwc, hbr, hbc, hch2⟩ := hch
    obtain ⟨l2, outp, hfwd, hout⟩ := forward_shape l m nIn hm hwc hbr hbc
    obtain ⟨ls2, fin, hrec, hfin⟩ := ih l.weights.rows nOut
      (Matrix.fromVec outp.to_param_2d) hch2 (fromVec_rowshape outp l.weights.rows hout)
    refine ⟨l2 :: ls2, fin, ?_, hfin⟩
    simp only [Network.forwardLayers, hfwd, hrec]

/-- Building a `LayerChain` from an indexed family of layers whose
dimensions follow a size function. -/
theorem chain_build (sz : Nat → Nat) (f : Nat → Dense)
    (hf : ∀ i, (f i).weights.columns = sz i ∧ (f i).weights.rows = sz (i + 1) ∧
      (f i).biases.rows = sz (i + 1) ∧ (f i).biases.columns = 1) :
    ∀ (n a : Nat), LayerChain (sz a) ((List.range n).map fun i => f (a + i)) (sz (a + n)) := by
  intro n
  induction n with
  | zero =>
    intro a
    show sz a = sz (a + 0)
    rfl
  | succ n ih =>
    intro a
    rw [List.range_succ_eq_map, List.map_cons, List.map_map]
    refine ⟨?_, ?_, ?_, ?_⟩
    · exact (hf (a + 0)).1
    · rw [(hf (a + 0)).2.2.1, (hf (a + 0)).2.1]
    · exact (hf (a + 0)).2.2.2
    · have hm : ((List.range n).map ((fun i => f (a + i)) ∘ Nat.succ)) =
          (List.range n).map (fun i => f ((a + 1) + i)) := by
        apply List.map_congr_left
        intro x _
        simp only [Function.comp]
        congr 1
        omega
      rw [hm, (hf (a + 0)).2.1]
      have harith : a + 0 + 1 = a + 1 := by omega
      rw [harith]
      have := ih (a + 1)
      have harith2 : a + 1 + n = a + (n + 1) := by omega
      rwa [harith2] at this

/-- The layers of a freshly compiled network form a `LayerChain` from the
first declared size to the last declared size. -/
theorem compiled_chain (specs : List LayerTypes) (rng : Nat → Nat → Nat → Nat → ℚ) :
    LayerChain ((specs.map LayerTypes.get_size).getD 0 0)
      (((specs.foldl Network.add_layer Network.new).compile rng).layers)
      ((specs.map LayerTypes.get_size).getD (specs.length - 1) 0) := by
  have hfold := foldl_add_layer specs Network.new
  have hsz : (specs.foldl Network.add_layer Network.new).layer_sizes =
      specs.map LayerTypes.get_size := by rw [hfold.1]; rfl
  have hun : (specs.foldl Network.add_layer Network.new).uncompiled_layers = specs := by
    rw [hfold.2.1]; rfl
  have hly : (specs.foldl Network.add_layer Network.new).layers = [] := hfold.2.2
  have hcomp : ((specs.foldl Network.add_layer Network.new).compile rng).layers =
      (List.range (specs.length - 1)).map fun j =>
        (specs.getD j dfltLayerType).to_layer (rng j 0) (rng j 1)
          ((specs.map LayerTypes.get_size).getD (j + 1) 0) := by
    simp only [Network.compile, hsz, hun, hly, List.nil_append]
  rw [hcomp]
  have hf : ∀ i, (((specs.getD i dfltLayerType).to_layer (rng i 0) (rng i 1)
        ((specs.map LayerTypes.get_size).getD (i + 1) 0))).weights.columns =
        (specs.map LayerTypes.get_size).getD i 0 ∧
      (((specs.getD i dfltLayerType).to_layer (rng i 0) (rng i 1)
        ((specs.map LayerTypes.get_size).getD (i + 1) 0))).weights.rows =
        (specs.map LayerTypes.get_size).getD (i + 1) 0 ∧
      (((specs.getD i dfltLayerType).to_layer (rng i 0) (rng i 1)
        ((specs.map LayerTypes.get_size).getD (i + 1) 0))).biases.rows =
        (specs.map LayerTypes.get_size).getD (i + 1) 0 ∧
      (((specs.getD i dfltLayerType).to_layer (rng i 0) (rng i 1)
        ((specs.map LayerTypes.get_size).getD (i + 1) 0))).biases.columns = 1 := by
    intro i
    refine ⟨?_, (to_layer_dims _ _ _ _).1, (to_layer_dims _ _ _ _).2.2.1, (to_layer_dims _ _ _ _).2.2.2⟩
    rw [(to_layer_dims _ _ _ _).2.1]
    exact (getD_map LayerTypes.get_size specs i dfltLayerType).symm
  have hchain := chain_build (fun i => (specs.map LayerTypes.get_size).getD i 0)
    (fun i => (specs.getD i dfltLayerType).to_layer (rng i 0) (rng i 1)
      ((specs.map LayerTypes.get_size).getD (i + 1) 0)) hf (specs.length - 1) 0
  have hmcongr : ((List.range (specs.length - 1)).map fun i =>
      (specs.getD (0 + i) dfltLayerType).to_layer (rng (0 + i) 0) (rng (0 + i) 1)
        ((specs.map LayerTypes.get_size).getD ((0 + i) + 1) 0)) =
      ((List.range (specs.length - 1)).map fun j =>
        (specs.getD j dfltLayerType).to_layer (rng j 0) (rng j 1)
          ((specs.map LayerTypes.get_size).getD (j + 1) 0)) := by
    apply List.map_congr_left
    intro x _
    have h0 : 0 + x = x := by omega
    rw [h0]
  rw [hmcongr] at hchain
  have hz : (0 : Nat) + (specs.length - 1) = specs.length - 1 := by omega
  rwa [hz] at hchain

end Triton

namespace Triton

unseal Rat.add Rat.mul Rat.inv Rat.sub in
/-- Claim C5 is false as stated: on the freshly compiled `[2, 1]` network
`c52` and the input `[0, 0]` — whose length 2 equals the first declared
layer size — `feed_forward` fails (the first dense multiply hits a
dimension mismatch under the specified Matrix/Input semantics): it does not
return a vector at all. -/
theorem feed_forward_fails_cex :
    c52.layer_sizes.getD 0 0 = 2 ∧ ([0, 0] : List ℚ).length = 2 ∧
      ffLen (c52.feed_forward [0, 0]) = none := by
  refine ⟨by decide, by decide, by decide⟩

/-- Claim C5 (amended): on a freshly compiled network whose first and last
declared layer sizes are both 1, `feed_forward` on an input of length 1
(the first declared size) does not fail and returns a vector whose length
equals the last declared layer size. -/
theorem feed_forward_ok_unit_sizes (specs : List LayerTypes)
    (rng : Nat → Nat → Nat → Nat → ℚ) (v : List ℚ) (hne : specs ≠ [])
    (hfirst : (specs.map LayerTypes.get_size).getD 0 0 = 1)
    (hlast : (specs.map LayerTypes.get_size).getD (specs.length - 1) 0 = 1)
    (hv : v.length = 1) :
    ffLen (((specs.foldl Network.add_layer Network.new).compile rng).feed_forward v) =
      some ((specs.map LayerTypes.get_size).getD (specs.length - 1) 0) := by
  obtain ⟨x, hvx⟩ : ∃ x, v = [x] := by
    cases v with
    | nil => simp at hv
    | cons x t =>
      cases t with
      | nil => exact ⟨x, rfl⟩
      | cons y t2 => simp at hv
  subst hvx
  obtain ⟨s, specs', hspecs⟩ : ∃ s specs', specs = s :: specs' := by
    cases specs with
    | nil => exact absurd rfl hne
    | cons s specs' => exact ⟨s, specs', rfl⟩
  have hfold := foldl_add_layer specs Network.new
  have hszc : ((specs.foldl Network.add_layer Network.new).compile rng).layer_sizes =
      LayerTypes.get_size s :: specs'.map LayerTypes.get_size := by
    show (specs.foldl Network.add_layer Network.new).layer_sizes = _
    rw [hfold.1, hspecs]
    rfl
  have hs0 : LayerTypes.get_size s = 1 := by
    rw [hspecs] at hfirst
    simpa using hfirst
  have hm0 : RowShape ((Matrix.fromVec [[x]]).transpose) 1 :=
    ⟨rfl, rfl, _, rfl, rfl⟩
  have hchain := compiled_chain specs rng
  rw [hfirst] at hchain
  obtain ⟨ls2, fin, hfwd, hfin⟩ := forwardLayers_shape
    (((specs.foldl Network.add_layer Network.new).compile rng).layers) 1
    ((specs.map LayerTypes.get_size).getD (specs.length - 1) 0)
    ((Matrix.fromVec [[x]]).transpose) hchain hm0
  rw [hlast] at hfin
  obtain ⟨hfr, hfc, r0, hfd, hfl⟩ := hfin
  have htd : fin.transpose.data = [(List.range fin.rows).map fun i => fin.get i 0] := by
    unfold Matrix.transpose
    rw [hfc]
    rfl
  simp only [Network.feed_forward, hszc, hfwd, htd, ffLen]
  rw [hlast]
  simp [hs0, hfr]

unseal Rat.add Rat.mul Rat.inv Rat.sub in
/-- Witness for the amended C5 on a concrete `[1, 1]` network. -/
theorem feed_forward_ok_unit_sizes_witness :
    (([LayerTypes.DENSE 1 RELU (1 / 10), LayerTypes.DENSE 1 RELU (1 / 10)] :
        List LayerTypes) ≠ [] ∧
      (([LayerTypes.DENSE 1 RELU (1 / 10), LayerTypes.DENSE 1 RELU (1 / 10)] :
        List LayerTypes).map LayerTypes.get_size).getD 0 0 = 1 ∧
      (([LayerTypes.DENSE 1 RELU (1 / 10), LayerTypes.DENSE 1 RELU (1 / 10)] :
        List LayerTypes).map LayerTypes.get_size).getD
        (([LayerTypes.DENSE 1 RELU (1 / 10), LayerTypes.DENSE 1 RELU (1 / 10)] :
          List LayerTypes).length - 1) 0 = 1 ∧
      ([(5 : ℚ)] : List ℚ).length = 1) ∧
    ffLen (((([LayerTypes.DENSE 1 RELU (1 / 10), LayerTypes.DENSE 1 RELU (1 / 10)] :
        List LayerTypes).foldl Network.add_layer Network.new).compile crng).feed_forward [(5 : ℚ)]) =
      some ((([LayerTypes.DENSE 1 RELU (1 / 10), LayerTypes.DENSE 1 RELU (1 / 10)] :
        List LayerTypes).map LayerTypes.get_size).getD
        (([LayerTypes.DENSE 1 RELU (1 / 10), LayerTypes.DENSE 1 RELU (1 / 10)] :
          List LayerTypes).length - 1) 0) :=
  ⟨⟨by simp, by decide, by decide, by decide⟩,
    feed_forward_ok_unit_sizes
      [LayerTypes.DENSE 1 RELU (1 / 10), LayerTypes.DENSE 1 RELU (1 / 10)] crng [(5 : ℚ)]
      (by simp) (by decide) (by decide) (by decide)⟩

end Triton
